import Mathlib

/-!
Verification development for `unyt/dask_array.py`: a `dask.array.core.Array`
subclass (`unyt_dask_array`) that tracks physical units through lazy array
operations via a scalar "sidecar" `unyt_quantity`.

Embedding notes.
* The module under verification is `dask_array.py`; its helper functions
  (`_sanitize_unit_args`, `_prep_ufunc`, `_special_dec`, `_post_ufunc`,
  `_simple_dask_decorator`, `_track_conversion`, `_create_with_quantity`,
  `_finalize_unyt`, `unyt_from_dask`, `__getattribute__` and the
  `unyt_dask_array` construction) are translated directly below, keeping the
  source names.
* The two external collaborators — the unyt unit library (`unyt.array`,
  `unyt.unit_object`) and the dask lazy-array engine — are not under `src/`;
  they are modelled from the spec (each such definition carries a
  `Modelled from the spec:` doc comment).
* Machine floats are modelled by exact rationals `ℚ`.
* Python object identity is modelled by an allocation id (`qid`) on each
  sidecar quantity: every function that allocates quantity objects takes a
  `fresh : ℕ` parameter and stamps newly allocated quantities with ids
  `fresh, fresh+1, …` from a documented, fixed layout.  Two quantities are
  the same Python object exactly when they have the same `qid`.
* All functions here are pure: no stored state of any operand is ever
  modified; an operation either returns a new value or an error.
-/

deriving instance DecidableEq for Except

/-- Modelled from the spec: the dimensions of a unit — a physical category
vector (exponents of length and time suffice for the claims); the unit
library's dimensional-compatibility check is equality of these vectors. -/
structure Dims where
  length : ℤ
  time : ℤ
deriving DecidableEq, Repr

/-- Modelled from the spec: the unit library's scalar unit type (unyt's
`Unit` class; renamed because `Unit` is taken in Lean).  A unit has
dimensions, a `base_value` scale factor relative to the canonical (MKS) unit
of the same dimensions, and a symbol; unit equality is structural (so `m`
and `km` are different units of equal dimensions). -/
structure PhysUnit where
  dims : Dims
  base_value : ℚ
  sym : String
deriving DecidableEq, Repr

/-- Modelled from the spec: product of two units (dimensions add,
base values multiply). -/
def PhysUnit.mulU (a b : PhysUnit) : PhysUnit :=
  ⟨⟨a.dims.length + b.dims.length, a.dims.time + b.dims.time⟩,
    a.base_value * b.base_value, a.sym ++ "*" ++ b.sym⟩

def dimensionless : PhysUnit := ⟨⟨0, 0⟩, 1, ""⟩

def meter : PhysUnit := ⟨⟨1, 0⟩, 1, "m"⟩

def centimeter : PhysUnit := ⟨⟨1, 0⟩, 1/100, "cm"⟩

def kilometer : PhysUnit := ⟨⟨1, 0⟩, 1000, "km"⟩

def second : PhysUnit := ⟨⟨0, 1⟩, 1, "s"⟩

/-- Modelled from the spec: the errors the unit library raises —
`UnitOperationError` during unit resolution of an operation on operands of
incompatible dimensions, `UnitConversionError` for a conversion to a
dimensionally incompatible target, and a type error for operand
combinations outside the modelled grammar. -/
inductive UnytError
  | UnitOperationError
  | UnitConversionError
  | UnitTypeError
deriving DecidableEq, Repr

/-- Modelled from the spec: unyt's scalar `unyt_quantity` — a magnitude, a
unit, an optional custom name.  `qid` is the allocation id modelling Python
object identity (not a Python field). -/
structure unyt_quantity where
  value : ℚ
  units : PhysUnit
  name : Option String
  qid : ℕ
deriving DecidableEq, Repr

/-- Modelled from the spec: `unyt_quantity.to(u)` — fails with a
`UnitConversionError` when the target unit's dimensions differ, otherwise
returns a freshly allocated quantity expressed in the target unit (the
magnitude is rescaled by the ratio of base values). -/
def unyt_quantity.to (q : unyt_quantity) (u : PhysUnit) (fresh : ℕ) :
    Except UnytError unyt_quantity :=
  if q.units.dims = u.dims then
    .ok ⟨q.value * q.units.base_value / u.base_value, u, q.name, fresh⟩
  else
    .error .UnitConversionError

/-- Modelled from the spec: the CGS unit of given dimensions (length is
measured in centimeters, so the base value scales by `(1/100)^length`). -/
def cgs_unit (d : Dims) : PhysUnit :=
  ⟨d, (1/100 : ℚ) ^ d.length, "cgs"⟩

/-- Modelled from the spec: the MKS / base unit of given dimensions (the
canonical unit, base value 1). -/
def mks_unit (d : Dims) : PhysUnit :=
  ⟨d, 1, "mks"⟩

/-- The five unit-conversion methods of the sidecar listed in
`_unyt_funcs_to_track` in the source (`to` and `in_units` take a target
unit; `in_cgs`, `in_base`, `in_mks` target a canonical unit system). -/
inductive ConvOp
  | to (u : PhysUnit)
  | in_units (u : PhysUnit)
  | in_cgs
  | in_base
  | in_mks
deriving DecidableEq, Repr

/-- Modelled from the spec: dispatch of a conversion method name on the
sidecar quantity (`in_units` is an alias of `to`; `in_base` and `in_mks`
convert to the canonical MKS unit, `in_cgs` to the CGS unit, of the
quantity's own dimensions). -/
def unyt_quantity.convert (q : unyt_quantity) :
    ConvOp → ℕ → Except UnytError unyt_quantity
  | .to u, fresh => q.to u fresh
  | .in_units u, fresh => q.to u fresh
  | .in_cgs, fresh => q.to (cgs_unit q.units.dims) fresh
  | .in_base, fresh => q.to (mks_unit q.units.dims) fresh
  | .in_mks, fresh => q.to (mks_unit q.units.dims) fresh

/-- The result of replaying an operation on the extracted operands: a
unit-bearing quantity, a plain number, a plain boolean (e.g. from a
comparison), or a value outside the modelled grammar.  Only the `quant`
constructor "has a `units` attribute" in the Python sense. -/
inductive UfuncArg
  | quant (q : unyt_quantity)
  | num (x : ℚ)
  | boolv (b : Bool)
  | other
deriving DecidableEq, Repr

/-- Whether the Python value modelled by this argument has a `units`
attribute (`hasattr(·, "units")` in the source). -/
def UfuncArg.hasUnits : UfuncArg → Bool
  | .quant _ => true
  | _ => false

/-- The binary operations replayed on sidecar quantities that the claims
exercise: addition, subtraction, multiplication and a comparison. -/
inductive Ufunc
  | add
  | sub
  | mul
  | lt
deriving DecidableEq, Repr

/-- Modelled from the spec: replaying a binary operation on scalar operand
tokens through the unit library.  Addition/subtraction of two quantities
requires equal dimensions (else `UnitOperationError`) and converts the
second operand into the first's unit; multiplication combines units; the
comparison requires equal dimensions and yields a plain boolean (no `units`
attribute).  A quantity combines additively with a plain number only when
dimensionless.  The result quantity (when any) is freshly allocated with id
`fresh`. -/
def applyUfunc (op : Ufunc) (a b : UfuncArg) (fresh : ℕ) :
    Except UnytError UfuncArg :=
  match op, a, b with
  | .add, .quant qa, .quant qb =>
    if qa.units.dims = qb.units.dims then
      .ok (.quant ⟨qa.value + qb.value * qb.units.base_value / qa.units.base_value,
        qa.units, none, fresh⟩)
    else .error .UnitOperationError
  | .add, .quant qa, .num x =>
    if qa.units.dims = (⟨0, 0⟩ : Dims) then
      .ok (.quant ⟨qa.value + x / qa.units.base_value, qa.units, none, fresh⟩)
    else .error .UnitOperationError
  | .add, .num x, .num y => .ok (.num (x + y))
  | .sub, .quant qa, .quant qb =>
    if qa.units.dims = qb.units.dims then
      .ok (.quant ⟨qa.value - qb.value * qb.units.base_value / qa.units.base_value,
        qa.units, none, fresh⟩)
    else .error .UnitOperationError
  | .sub, .quant qa, .num x =>
    if qa.units.dims = (⟨0, 0⟩ : Dims) then
      .ok (.quant ⟨qa.value - x / qa.units.base_value, qa.units, none, fresh⟩)
    else .error .UnitOperationError
  | .sub, .num x, .num y => .ok (.num (x - y))
  | .mul, .quant qa, .quant qb =>
    .ok (.quant ⟨qa.value * qb.value, qa.units.mulU qb.units, none, fresh⟩)
  | .mul, .quant qa, .num x =>
    .ok (.quant ⟨qa.value * x, qa.units, none, fresh⟩)
  | .mul, .num x, .quant qb =>
    .ok (.quant ⟨x * qb.value, qb.units, none, fresh⟩)
  | .mul, .num x, .num y => .ok (.num (x * y))
  | .lt, .quant qa, .quant qb =>
    if qa.units.dims = qb.units.dims then
      .ok (.boolv (decide (qa.value * qa.units.base_value <
        qb.value * qb.units.base_value)))
    else .error .UnitOperationError
  | .lt, .num x, .num y => .ok (.boolv (decide (x < y)))
  | _, _, _ => .error .UnitTypeError

/-- Modelled from the spec: the lazy-array engine's array value.  Only its
materialization semantics matter to this layer, so a dask array is carried
as either a chunked multi-element array of rationals or a 0-dimensional
(scalar) node, e.g. the output of a reduction. -/
inductive DaskArray
  | arr (xs : List ℚ)
  | scal (x : ℚ)
deriving DecidableEq, Repr

/-- Modelled from the spec: an elementwise binary operation of the engine,
with scalar broadcasting. -/
def daskBin (f : ℚ → ℚ → ℚ) : DaskArray → DaskArray → DaskArray
  | .arr xs, .arr ys => .arr (List.zipWith f xs ys)
  | .arr xs, .scal k => .arr (xs.map (fun a => f a k))
  | .scal k, .arr ys => .arr (ys.map (fun a => f k a))
  | .scal a, .scal b => .scal (f a b)

/-- Modelled from the spec: the engine's `mean` reduction — it produces a
0-dimensional (scalar) node. -/
def daskMeanOp : DaskArray → DaskArray
  | .arr xs => .scal (xs.sum / xs.length)
  | .scal x => .scal x

/-- Modelled from the spec: the fully materialized raw result of executing
a lazy array: either an in-memory `ndarray` or a single scalar value (the
realized form of a 0-dimensional / reduction result). -/
inductive Materialized
  | ndarr (xs : List ℚ)
  | scalarv (x : ℚ)
deriving DecidableEq, Repr

/-- Modelled from the spec: materialization of a lazy array (the engine's
`compute` plus its own `finalize` of the chunked results). -/
def DaskArray.compute : DaskArray → Materialized
  | .arr xs => .ndarr xs
  | .scal x => .scalarv x

/-- The attribute-name allow-list `_use_simple_decorator` from the source:
dask attributes that do not modify units. -/
def _use_simple_decorator : List String :=
  ["min", "max", "sum", "mean", "std", "cumsum", "squeeze", "rechunk",
   "clip", "view", "swapaxes", "round", "copy", "__deepcopy__", "repeat",
   "astype", "reshape", "topk"]

/-- The list `_unyt_funcs_to_track` from the source: sidecar attributes
wrapped with the unit-conversion decorator. -/
def _unyt_funcs_to_track : List String :=
  ["to", "in_units", "in_cgs", "in_base", "in_mks"]

/-- The `unyt_dask_array` class: a dask array (`dask` carries the
underlying plain lazy array, i.e. the state of the `dask.array.core.Array`
base) extended with the sidecar `_unyt_quantity` and the derived `units`
and `unyt_name` fields set alongside it. -/
structure unyt_dask_array where
  dask : DaskArray
  _unyt_quantity : unyt_quantity
  units : PhysUnit
  unyt_name : Option String
deriving DecidableEq, Repr

/-- `unyt_dask_array.__new__`: builds the base dask array, attaches a
freshly allocated sidecar quantity of magnitude 1.0 with the requested
unit, registry and name, and sets `units` and `unyt_name` from the sidecar.
Allocation layout: the sidecar gets id `fresh`. -/
def unyt_dask_array_new (d : DaskArray) (u : PhysUnit) (nm : Option String)
    (fresh : ℕ) : unyt_dask_array :=
  let q : unyt_quantity := ⟨1, u, nm, fresh⟩
  ⟨d, q, q.units, q.name⟩

/-- `unyt_from_dask`: wraps a plain dask array (reconstructed from its
`__reduce__` arguments) into a `unyt_dask_array`; a `units=None` argument
yields a dimensionless sidecar.  Allocation layout: one id, `fresh`. -/
def unyt_from_dask (d : DaskArray) (u : Option PhysUnit) (nm : Option String)
    (fresh : ℕ) : unyt_dask_array :=
  unyt_dask_array_new d (u.getD dimensionless) nm fresh

/-- `unyt_dask_array._set_unit_state`: sets just the unit state — the three
fields `units`, `_unyt_quantity`, `unyt_name` — of the object. -/
def _set_unit_state (x : unyt_dask_array) (u : PhysUnit)
    (new_unyt_quantity : unyt_quantity) (nm : Option String) : unyt_dask_array :=
  { x with units := u, _unyt_quantity := new_unyt_quantity, unyt_name := nm }

/-- `_create_with_quantity`: instantiates a new `unyt_dask_array` from the
plain dask array (via `unyt_from_dask` with no units, whose throwaway
sidecar gets id `fresh`) and then installs the unit state projected from
the *given* quantity object, which becomes the new instance's sidecar. -/
def _create_with_quantity (dask_array : DaskArray)
    (new_unyt_quantity : unyt_quantity) (fresh : ℕ) : unyt_dask_array :=
  let out := unyt_from_dask dask_array none none fresh
  _set_unit_state out new_unyt_quantity.units new_unyt_quantity
    new_unyt_quantity.name

/-- `_simple_dask_decorator`: applies the wrapped dask function (which
returns a standard dask array) and re-wraps the result with the current
instance's sidecar quantity via `_create_with_quantity` — note the sidecar
object itself is passed through, not copied. -/
def _simple_dask_decorator (dask_func : DaskArray → DaskArray)
    (current_unyt_dask : unyt_dask_array) (fresh : ℕ) : unyt_dask_array :=
  _create_with_quantity (dask_func current_unyt_dask.dask)
    current_unyt_dask._unyt_quantity fresh

/-- The operands an intercepted operation may receive in this model: a
unit-bearing lazy array, a plain dask array, or a plain scalar. -/
inductive Operand
  | udask (x : unyt_dask_array)
  | darr (d : DaskArray)
  | scalar (c : ℚ)
deriving DecidableEq, Repr

/-- `_extract_unyt`: returns the hidden `_unyt_quantity` if the operand is
a `unyt_dask_array`, otherwise the operand itself (a plain scalar models a
number token; a plain dask array has no `units` attribute and is outside
the grammar `applyUfunc` accepts). -/
def _extract_unyt : Operand → UfuncArg
  | .udask x => .quant x._unyt_quantity
  | .darr _ => .other
  | .scalar c => .num c

/-- `_extract_dask`: strips a `unyt_dask_array` operand down to its plain
dask array (`to_dask()` copies only the high-level graph), and passes any
other operand through. -/
def _extract_dask : Operand → Operand
  | .udask x => .darr x.dask
  | o => o

/-- `_extract_unyt_val`: converts a bare `unyt_quantity` operand to its
value; the operand grammar of this model has no bare-quantity constructor,
so this is the identity here. -/
def _extract_unyt_val : Operand → Operand := id

/-- The observable effect of `_track_conversion` for a conversion method,
written in unfolded form (the proved lemma `track_conversion_unfolded`
below shows the decorator defined from the source equals this): convert
the sidecar, scale the lazy array by the factor
`new_value / initial_value`, and wrap with the new unit.  Allocation
layout: the sidecar conversion allocates at `fresh` (discarded), ids
`fresh+1`, `fresh+2` are consumed by the intermediate multiplication, and
the returned instance's sidecar gets id `fresh+3`. -/
def udask_convert (cur : unyt_dask_array) (op : ConvOp) (fresh : ℕ) :
    Except UnytError unyt_dask_array :=
  match cur._unyt_quantity.convert op fresh with
  | .error e => .error e
  | .ok newq =>
    let factor := newq.value / cur._unyt_quantity.value
    .ok (unyt_from_dask (daskBin (fun a b => a * b) cur.dask (.scal factor))
      (some newq.units) none (fresh + 3))

/-- The `.to(u)` call made on an operand inside `_sanitize_unit_args`
(line `input[0] = input[0].to(ui_1.units)`): on a `unyt_dask_array` this is
the conversion-tracking wrapper returned by `__getattribute__`. -/
def Operand.toU (o : Operand) (u : PhysUnit) (fresh : ℕ) :
    Except UnytError Operand :=
  match o with
  | .udask x => (udask_convert x (.to u) fresh).map .udask
  | _ => .error .UnitTypeError

/-- `_sanitize_unit_args`: extracts the sidecar tokens of the (first two)
operands; when both carry units that are different but of equal dimensions,
converts the operand whose unit has the smaller `base_value` into the
other's unit (on the else branch, including base-value ties, the second
operand is converted into the first's unit) and re-extracts; returns the
possibly-converted operands together with the extracted tokens.
Allocation layout: a conversion, when performed, uses ids
`[fresh, fresh+4)`. -/
def _sanitize_unit_args (i0 i1 : Operand) (fresh : ℕ) :
    Except UnytError ((Operand × Operand) × (UfuncArg × UfuncArg)) :=
  match _extract_unyt i0, _extract_unyt i1 with
  | .quant q0, .quant q1 =>
    if q0.units ≠ q1.units ∧ q0.units.dims = q1.units.dims then
      if q0.units.base_value < q1.units.base_value then
        (i0.toU q1.units fresh).map
          (fun j0 => ((j0, i1), (_extract_unyt j0, _extract_unyt i1)))
      else
        (i1.toU q0.units fresh).map
          (fun j1 => ((i0, j1), (_extract_unyt i0, _extract_unyt j1)))
    else .ok ((i0, i1), (.quant q0, .quant q1))
  | a0, a1 => .ok ((i0, i1), (a0, a1))

/-- `_prep_ufunc`: sanitizes the inputs, replays the operation on the
hidden unyt quantities (this is where a unit error surfaces, before any
engine call), optionally strips unit-bearing operands to plain dask arrays,
and returns the cleaned operands with the replayed result.  Allocation
layout: sanitation uses `[fresh, fresh+4)`, the replayed result is
allocated at `fresh+4`. -/
def _prep_ufunc (op : Ufunc) (i0 i1 : Operand) (extract_dask : Bool)
    (fresh : ℕ) : Except UnytError ((Operand × Operand) × UfuncArg) :=
  match _sanitize_unit_args i0 i1 fresh with
  | .error e => .error e
  | .ok ((j0, j1), (a0, a1)) =>
    match applyUfunc op a0 a1 (fresh + 4) with
    | .error e => .error e
    | .ok unyt_result =>
      let k0 := if extract_dask then _extract_dask j0 else j0
      let k1 := if extract_dask then _extract_dask j1 else j1
      .ok ((_extract_unyt_val k0, _extract_unyt_val k1), unyt_result)

/-- Modelled from the spec: the plain dask-array view of an operand, as
seen by the engine's own operator methods. -/
def Operand.asDask : Operand → DaskArray
  | .udask x => x.dask
  | .darr d => d
  | .scalar c => .scal c

/-- Modelled from the spec: the engine's own binary operator methods
(`getattr(Array, funcname)`), computing elementwise on the plain arrays
(a comparison is materialized as a 0/1 array here, since only numeric
payloads are modelled). -/
def engineFor : Ufunc → Operand → Operand → DaskArray
  | .add, a, b => daskBin (fun x y => x + y) a.asDask b.asDask
  | .sub, a, b => daskBin (fun x y => x - y) a.asDask b.asDask
  | .mul, a, b => daskBin (fun x y => x * y) a.asDask b.asDask
  | .lt, a, b => daskBin (fun x y => if x < y then 1 else 0) a.asDask b.asDask

/-- `_special_dec`: the decorator for the special operator methods
(`__add__`, `__mul__`, …).  It preps the inputs (replaying the operation on
the sidecars — any unit error aborts here, before the engine is consulted),
then calls the engine's corresponding method on the cleaned operands, and
re-wraps the engine result with the replayed quantity when that result has
a `units` attribute, returning the plain engine result otherwise.  The
engine method is a parameter so that theorems can quantify over it.
Allocation layout: `_prep_ufunc` uses `[fresh, fresh+5)`, the re-wrap
intermediate uses `fresh+5`. -/
def _special_dec (op : Ufunc) (engine : Operand → Operand → DaskArray)
    (i0 i1 : Operand) (fresh : ℕ) :
    Except UnytError (unyt_dask_array ⊕ DaskArray) :=
  match _prep_ufunc op i0 i1 true fresh with
  | .error e => .error e
  | .ok ((j0, j1), unyt_result) =>
    let daskresult := engine j0 j1
    match unyt_result with
    | .quant q => .ok (.inl (_create_with_quantity daskresult q (fresh + 5)))
    | _ => .ok (.inr daskresult)

/-- `_post_ufunc`: attaches the hidden unyt quantity to the result of a
ufunc / array-function / elementwise delegation when the replayed result
has a `units` attribute, and returns the plain dask result unchanged
otherwise. -/
def _post_ufunc (dask_result : DaskArray) (unyt_result : UfuncArg)
    (fresh : ℕ) : unyt_dask_array ⊕ DaskArray :=
  match unyt_result with
  | .quant q => .inl (_create_with_quantity dask_result q fresh)
  | _ => .inr dask_result

/-- `_track_conversion`: the decorator returned by `__getattribute__` for
the five conversion methods.  It records the sidecar's current value, calls
the named conversion on the sidecar, computes the multiplicative factor
`new_value / initial_value`, multiplies the lazy array by that factor
(through `__mul__`, i.e. `_special_dec`), and wraps the product's plain
graph with the new unit via `unyt_from_dask`.  Allocation layout: the
sidecar conversion allocates at `fresh`, the multiplication uses
`[fresh+1, fresh+7)`, and the returned instance's sidecar gets `fresh+7`. -/
def _track_conversion (op : ConvOp) (current_unyt_dask : unyt_dask_array)
    (fresh : ℕ) : Except UnytError unyt_dask_array :=
  let init_val := current_unyt_dask._unyt_quantity.value
  match current_unyt_dask._unyt_quantity.convert op fresh with
  | .error e => .error e
  | .ok new_unyt_quantity =>
    let factor := new_unyt_quantity.value / init_val
    match _special_dec .mul (engineFor .mul) (.udask current_unyt_dask)
        (.scalar factor) (fresh + 1) with
    | .error e => .error e
    | .ok (.inl mulres) =>
      .ok (unyt_from_dask mulres.dask (some new_unyt_quantity.units) none
        (fresh + 7))
    | .ok (.inr d) =>
      .ok (unyt_from_dask d (some new_unyt_quantity.units) none (fresh + 7))

/-- The attribute kinds `__getattribute__` can hand back for a name: the
conversion-tracking wrapper, the raw sidecar bound method that `__new__`
installed in the instance dictionary, a simple-decorator-wrapped dask
method, or an ordinary attribute. -/
inductive Attr
  | conversionWrapper (name : String)
  | rawSidecarMethod (name : String)
  | simpleWrapped (name : String)
  | plainAttr (name : String)
deriving DecidableEq, Repr

/-- The base lookup `super().__getattribute__(name)`: for the five tracked
conversion names it finds the raw sidecar bound method that `__new__`
installed on the instance (`setattr(obj, attr, getattr(obj._unyt_quantity,
attr))`); anything else is an ordinary attribute. -/
def instance_getattr (name : String) : Attr :=
  if name ∈ _unyt_funcs_to_track then .rawSidecarMethod name
  else .plainAttr name

/-- `unyt_dask_array.__getattribute__`: names in `_unyt_funcs_to_track`
short-circuit to the conversion-tracking wrapper *before* the base lookup
runs; otherwise the base lookup result is returned, wrapped with the simple
decorator when the name is in `_use_simple_decorator`. -/
def getattribute (name : String) : Attr :=
  if name ∈ _unyt_funcs_to_track then .conversionWrapper name
  else
    let result := instance_getattr name
    if name ∈ _use_simple_decorator then .simpleWrapped name
    else result

/-- Modelled from the spec: the concrete unit-bearing results
`_finalize_unyt` can hand back — `unyt.unyt_array` over an in-memory array
or a scalar `unyt.unyt_quantity`. -/
inductive UnytResult
  | unyt_array_res (xs : List ℚ) (u : PhysUnit)
  | unyt_quantity_res (x : ℚ) (u : PhysUnit)
deriving DecidableEq, Repr

/-- `_finalize_unyt`: the `__dask_postcompute__` hook target.  It takes the
finalized in-memory result and the unit recorded at wrap time, and returns
a `unyt_array` when the realized value is an `ndarray` and a
`unyt_quantity` when it is a single scalar value — dispatching only on the
realized value's shape, with no knowledge of the producing operation. -/
def _finalize_unyt (result : Materialized) (unit_name : PhysUnit) :
    UnytResult :=
  match result with
  | .ndarr xs => .unyt_array_res xs unit_name
  | .scalarv x => .unyt_quantity_res x unit_name

/-- Materialization of a `unyt_dask_array`: `compute()` materializes the
underlying lazy array and `__dask_postcompute__` routes the raw result
through `_finalize_unyt` with `self.units`. -/
def unyt_dask_array.computeU (x : unyt_dask_array) : UnytResult :=
  _finalize_unyt x.dask.compute x.units

/-- `x.mean()`: attribute access returns the simple-decorated engine
`mean`, whose call applies the engine reduction and re-wraps with the
current sidecar. -/
def unyt_dask_array.mean (x : unyt_dask_array) (fresh : ℕ) : unyt_dask_array :=
  _simple_dask_decorator daskMeanOp x fresh

/-- The data-model invariant of the spec: `units` and `unyt_name` are
exactly the projection of the sidecar quantity's unit state. -/
def unit_state_consistent (x : unyt_dask_array) : Prop :=
  x.units = x._unyt_quantity.units ∧ x.unyt_name = x._unyt_quantity.name

/-- The unit that `_sanitize_unit_args` reconciles two unit-bearing
operands to: the unit of the operand with the larger `base_value` (the
first operand's unit on a tie). -/
def reconcile_target (q0 q1 : unyt_quantity) : PhysUnit :=
  if q0.units.base_value < q1.units.base_value then q1.units else q0.units

/-- The unit attached to the array result of a special-operator call, when
the call succeeded and was re-wrapped. -/
def special_result_units :
    Except UnytError (unyt_dask_array ⊕ DaskArray) → Option PhysUnit
  | .ok (.inl y) => some y.units
  | _ => none

/-- The units of the two extracted sidecar tokens returned by a successful
sanitation, when both carry units. -/
def sanitized_units :
    Except UnytError ((Operand × Operand) × (UfuncArg × UfuncArg)) →
      Option (PhysUnit × PhysUnit)
  | .ok (_, (.quant s0, .quant s1)) => some (s0.units, s1.units)
  | _ => none

/-- Whether a (possibly failed) operation result satisfies the unit-state
invariant: trivially holds on an error, and on success the produced
instance must be consistent. -/
def consistent_result : Except UnytError unyt_dask_array → Prop
  | .ok y => unit_state_consistent y
  | .error _ => True

/-- Whether a special-operator result satisfies the unit-state invariant:
constrains only the re-wrapped (unit-bearing) outcome. -/
def consistent_special : Except UnytError (unyt_dask_array ⊕ DaskArray) → Prop
  | .ok (.inl y) => unit_state_consistent y
  | _ => True

/-- Whether a conversion result, when successful, is a freshly wrapped
`unyt_dask_array` — built by `unyt_from_dask` from a lazy array and a unit,
with a sidecar allocated at id `f + 7` (so not any pre-existing scalar
quantity). -/
def freshly_wrapped (f : ℕ) : Except UnytError unyt_dask_array → Prop
  | .ok y => y = unyt_from_dask y.dask (some y.units) none (f + 7)
  | .error _ => True

/-! Helper lemmas shared by the claim theorems. -/

lemma unyt_from_dask_fields (d : DaskArray) (u : Option PhysUnit)
    (nm : Option String) (f : ℕ) :
    unyt_from_dask d u nm f =
      ⟨d, ⟨1, u.getD dimensionless, nm, f⟩, u.getD dimensionless, nm⟩ := rfl

lemma create_with_quantity_fields (d : DaskArray) (q : unyt_quantity) (f : ℕ) :
    _create_with_quantity d q f = ⟨d, q, q.units, q.name⟩ := rfl

lemma special_mul_scalar (x : unyt_dask_array) (c : ℚ) (f : ℕ) :
    _special_dec .mul (engineFor .mul) (.udask x) (.scalar c) f =
      .ok (.inl ⟨daskBin (fun a b => a * b) x.dask (.scal c),
        ⟨x._unyt_quantity.value * c, x._unyt_quantity.units, none, f + 4⟩,
        x._unyt_quantity.units, none⟩) := rfl

lemma track_conversion_unfolded (op : ConvOp) (cur : unyt_dask_array)
    (f : ℕ) : _track_conversion op cur f = udask_convert cur op (f + 4) := by
  have hq : ∀ g : ℕ, cur._unyt_quantity.convert op g =
      (cur._unyt_quantity.convert op 0).map (fun r => { r with qid := g }) := by
    intro g
    cases op <;>
      simp only [unyt_quantity.convert, unyt_quantity.to] <;>
      split <;> rfl
  rw [_track_conversion, udask_convert, hq f, hq (f + 4)]
  cases hc : cur._unyt_quantity.convert op 0 with
  | error e => rfl
  | ok newq => simp only [Except.map, special_mul_scalar]

lemma track_to_eq (x : unyt_dask_array) (u : PhysUnit) (f : ℕ)
    (hdim : x._unyt_quantity.units.dims = u.dims) :
    _track_conversion (.to u) x f =
      .ok (unyt_from_dask
        (daskBin (fun a b => a * b) x.dask
          (.scal ((x._unyt_quantity.value * x._unyt_quantity.units.base_value /
            u.base_value) / x._unyt_quantity.value)))
        (some u) none (f + 7)) := by
  rw [_track_conversion]
  simp only [unyt_quantity.convert, unyt_quantity.to, if_pos hdim,
    special_mul_scalar]

lemma daskBin_mul_cancel (d : DaskArray) (f1 f2 : ℚ) (h : f1 * f2 = 1) :
    daskBin (fun a b => a * b) (daskBin (fun a b => a * b) d (.scal f1))
      (.scal f2) = d := by
  cases d with
  | arr xs =>
    have hmap : ∀ ys : List ℚ,
        (ys.map (fun a => a * f1)).map (fun a => a * f2) = ys := by
      intro ys
      induction ys with
      | nil => rfl
      | cons a t ih => simp [ih, mul_assoc, h]
    exact congrArg DaskArray.arr (hmap xs)
  | scal x =>
    show DaskArray.scal (x * f1 * f2) = DaskArray.scal x
    rw [mul_assoc, h, mul_one]

lemma applyUfunc_ok_quant_qid (op : Ufunc) (a b : UfuncArg) (f : ℕ)
    (q : unyt_quantity) (h : applyUfunc op a b f = .ok (.quant q)) :
    q.qid = f := by
  cases op <;> cases a <;> cases b <;>
    simp only [applyUfunc] at h <;>
    (try split at h) <;>
    (try simp_all) <;>
    (try rw [← h])

/-! Claim theorems. -/

/-- C10: for every instance and every name in the conversion list
(`to`, `in_units`, `in_cgs`, `in_base`, `in_mks`), attribute access returns
the conversion-tracking wrapper — never the raw sidecar-quantity method
that `__new__` installed, even though the base lookup would find exactly
that raw method — and a successful invocation of the tracked conversion
yields a freshly wrapped `unyt_dask_array` (wrapped lazy array plus new
unit), not a scalar quantity. -/
theorem c10_conversion_attrs_always_wrapped (name : String)
    (h : name ∈ _unyt_funcs_to_track) (op : ConvOp)
    (cur : unyt_dask_array) (f : ℕ) :
    getattribute name = .conversionWrapper name ∧
    instance_getattr name = .rawSidecarMethod name ∧
    getattribute name ≠ instance_getattr name ∧
    freshly_wrapped f (_track_conversion op cur f) := by
  refine ⟨?_, ?_, ?_, ?_⟩
  · rw [getattribute, if_pos h]
  · rw [instance_getattr, if_pos h]
  · rw [getattribute, if_pos h, instance_getattr, if_pos h]
    simp
  · rw [track_conversion_unfolded, udask_convert]
    cases hc : cur._unyt_quantity.convert op (f + 4) with
    | error e => simp only [hc, freshly_wrapped]
    | ok newq =>
      simp only [hc, freshly_wrapped]
      rfl

/-- Witness for C10 at the name `to` and a concrete conversion. -/
theorem c10_witness :
    getattribute "to" = .conversionWrapper "to" ∧
    instance_getattr "to" = .rawSidecarMethod "to" ∧
    getattribute "to" ≠ instance_getattr "to" ∧
    freshly_wrapped 0 (_track_conversion (.to centimeter)
      (unyt_from_dask (.arr [1, 2]) (some meter) none 0) 0) :=
  c10_conversion_attrs_always_wrapped "to" (by decide) (.to centimeter)
    (unyt_from_dask (.arr [1, 2]) (some meter) none 0) 0

/-- C5: for every name in the simple allow-list, attribute access returns
the simple-decorator wrapper, and the array the wrapper produces carries a
unit identical to the input array's unit (given the input satisfies the
units-projection invariant; unconditionally, the result's unit is the input
sidecar's unit). -/
theorem c5_simple_ops_preserve_units (name : String)
    (hname : name ∈ _use_simple_decorator)
    (g : DaskArray → DaskArray) (x : unyt_dask_array) (f : ℕ)
    (hcons : x.units = x._unyt_quantity.units) :
    getattribute name = .simpleWrapped name ∧
    (_simple_dask_decorator g x f).units = x.units := by
  constructor
  · fin_cases hname <;> rfl
  · rw [hcons]
    rfl

/-- Witness for C5 at the name `sum` and a concrete array. -/
theorem c5_witness :
    getattribute "sum" = .simpleWrapped "sum" ∧
    (_simple_dask_decorator daskMeanOp
      (unyt_from_dask (.arr [1, 2]) (some meter) none 0) 5).units =
      (unyt_from_dask (.arr [1, 2]) (some meter) none 0).units :=
  c5_simple_ops_preserve_units "sum" (by decide) daskMeanOp
    (unyt_from_dask (.arr [1, 2]) (some meter) none 0) 5 rfl

/-- C6: every operation that produces a unit-bearing array — direct
construction, wrapping, the simple decorator, a tracked conversion, a
special operator — sets `units`, `_unyt_quantity` and `unyt_name` together,
and the produced instance always has `units` and `unyt_name` exactly equal
to the projection of its sidecar's unit state. -/
theorem c6_unit_state_invariant (d : DaskArray) (u : PhysUnit)
    (nm : Option String) (q : unyt_quantity) (g : DaskArray → DaskArray)
    (x : unyt_dask_array) (op : ConvOp) (opu : Ufunc)
    (eng : Operand → Operand → DaskArray) (i0 i1 : Operand) (f : ℕ) :
    unit_state_consistent (unyt_dask_array_new d u nm f) ∧
    unit_state_consistent (_create_with_quantity d q f) ∧
    unit_state_consistent (_simple_dask_decorator g x f) ∧
    consistent_result (_track_conversion op x f) ∧
    consistent_special (_special_dec opu eng i0 i1 f) := by
  refine ⟨⟨rfl, rfl⟩, ⟨rfl, rfl⟩, ⟨rfl, rfl⟩, ?_, ?_⟩
  · rw [track_conversion_unfolded, udask_convert]
    cases hc : x._unyt_quantity.convert op (f + 4) with
    | error e => simp only [consistent_result]
    | ok newq => exact ⟨rfl, rfl⟩
  · rw [_special_dec]
    cases hp : _prep_ufunc opu i0 i1 true f with
    | error e => simp only [consistent_special]
    | ok pr =>
      obtain ⟨⟨j0, j1⟩, r⟩ := pr
      cases r with
      | quant qr => exact ⟨rfl, rfl⟩
      | num v => simp only [consistent_special]
      | boolv b => simp only [consistent_special]
      | other => simp only [consistent_special]

/-- C4: `_finalize_unyt` dispatches purely on the shape of the realized
value — a materialized `ndarray` becomes a `unyt_array`, a materialized
single value becomes a `unyt_quantity` — with the unit recorded at wrap
time; in particular `mean()` on a unit-bearing array wrapped over a
multi-element lazy array materializes to a unit-bearing scalar carrying the
array's unit, not a plain number. -/
theorem c4_finalize_shape_dispatch (xs : List ℚ) (v : ℚ) (up u : PhysUnit)
    (nm : Option String) (f g : ℕ) :
    _finalize_unyt (.ndarr xs) up = .unyt_array_res xs up ∧
    _finalize_unyt (.scalarv v) up = .unyt_quantity_res v up ∧
    ((unyt_from_dask (.arr xs) (some u) nm f).mean g).computeU =
      .unyt_quantity_res (xs.sum / xs.length) u := by
  exact ⟨rfl, rfl, rfl⟩

/-- C8: when the operation replayed on the sidecar values yields a result
with no `units` attribute (for example a comparison), both `_post_ufunc`
and the special-operator decorator return the plain engine result as-is;
when the replayed result does carry units, the engine result is re-wrapped
with that quantity. -/
theorem c8_rewrap_iff_replayed_result_has_units (d : DaskArray)
    (r : UfuncArg) (q : unyt_quantity) (op : Ufunc)
    (eng : Operand → Operand → DaskArray) (i0 i1 j0 j1 : Operand) (f : ℕ) :
    (_post_ufunc d (.quant q) f = .inl (_create_with_quantity d q f)) ∧
    (r.hasUnits = false → _post_ufunc d r f = .inr d) ∧
    (_prep_ufunc op i0 i1 true f = .ok ((j0, j1), .quant q) →
      _special_dec op eng i0 i1 f =
        .ok (.inl (_create_with_quantity (eng j0 j1) q (f + 5)))) ∧
    (_prep_ufunc op i0 i1 true f = .ok ((j0, j1), r) → r.hasUnits = false →
      _special_dec op eng i0 i1 f = .ok (.inr (eng j0 j1))) := by
  refine ⟨rfl, ?_, ?_, ?_⟩
  · intro hr
    cases r with
    | quant qq => simp [UfuncArg.hasUnits] at hr
    | num v => rfl
    | boolv b => rfl
    | other => rfl
  · intro hp
    rw [_special_dec, hp]
  · intro hp hr
    rw [_special_dec, hp]
    cases r with
    | quant qq => simp [UfuncArg.hasUnits] at hr
    | num v => rfl
    | boolv b => rfl
    | other => rfl

/-- Witness for C8: a comparison of two meter arrays replays to a plain
boolean (no units), and the special decorator hands back the plain engine
result unwrapped. -/
theorem c8_witness :
    (_prep_ufunc .lt (.udask (unyt_from_dask (.arr [1, 2]) (some meter) none 0))
        (.udask (unyt_from_dask (.arr [3, 1]) (some meter) none 1)) true 10 =
      .ok ((.darr (.arr [1, 2]), .darr (.arr [3, 1])), .boolv false)) ∧
    ((UfuncArg.boolv false).hasUnits = false) ∧
    (_special_dec .lt (engineFor .lt)
        (.udask (unyt_from_dask (.arr [1, 2]) (some meter) none 0))
        (.udask (unyt_from_dask (.arr [3, 1]) (some meter) none 1)) 10 =
      .ok (.inr (engineFor .lt (.darr (.arr [1, 2])) (.darr (.arr [3, 1]))))) := by
  have hp : _prep_ufunc .lt
      (.udask (unyt_from_dask (.arr [1, 2]) (some meter) none 0))
      (.udask (unyt_from_dask (.arr [3, 1]) (some meter) none 1)) true 10 =
      .ok ((.darr (.arr [1, 2]), .darr (.arr [3, 1])), .boolv false) := by
    simp [_prep_ufunc, _sanitize_unit_args, _extract_unyt, _extract_dask,
      _extract_unyt_val, applyUfunc, unyt_from_dask, unyt_dask_array_new, meter]
  refine ⟨hp, rfl, ?_⟩
  exact (c8_rewrap_iff_replayed_result_has_units (.arr [0, 0]) (.boolv false)
    ⟨1, meter, none, 0⟩ .lt (engineFor .lt)
    (.udask (unyt_from_dask (.arr [1, 2]) (some meter) none 0))
    (.udask (unyt_from_dask (.arr [3, 1]) (some meter) none 1))
    (.darr (.arr [1, 2])) (.darr (.arr [3, 1])) 10).2.2.2 hp rfl

lemma prep_ufunc_ok_quant_qid (op : Ufunc) (i0 i1 : Operand) (ed : Bool)
    (f : ℕ) (j0 j1 : Operand) (q : unyt_quantity)
    (h : _prep_ufunc op i0 i1 ed f = .ok ((j0, j1), .quant q)) :
    q.qid = f + 4 := by
  rw [_prep_ufunc] at h
  cases hsan : _sanitize_unit_args i0 i1 f with
  | error e => simp only [hsan] at h; exact Except.noConfusion h
  | ok pr =>
    obtain ⟨⟨k0, k1⟩, a0, a1⟩ := pr
    simp only [hsan] at h
    cases happ : applyUfunc op a0 a1 (f + 4) with
    | error e => simp only [happ] at h; exact Except.noConfusion h
    | ok r =>
      simp only [happ, Except.ok.injEq, Prod.mk.injEq] at h
      exact applyUfunc_ok_quant_qid op a0 a1 (f + 4) q (h.2 ▸ happ)

/-- C7 counterexample: the simple-decorator path does share a sidecar.
Deriving an array through an allow-listed simple operation produces a
distinct instance whose `_unyt_quantity` is exactly the input's sidecar
object (same value, unit, name and allocation id, despite a disjoint fresh
id being supplied), contradicting the claim that no sidecar quantity is
ever shared between two distinct instances. -/
theorem c7_counterexample :
    (_simple_dask_decorator (fun _ => DaskArray.arr [])
        (unyt_from_dask (.arr [1, 2]) (some meter) none 0) 5)._unyt_quantity =
      (unyt_from_dask (.arr [1, 2]) (some meter) none 0)._unyt_quantity ∧
    _simple_dask_decorator (fun _ => DaskArray.arr [])
        (unyt_from_dask (.arr [1, 2]) (some meter) none 0) 5 ≠
      unyt_from_dask (.arr [1, 2]) (some meter) none 0 :=
  ⟨rfl, by decide⟩

/-- C7 amended: construction allocates a fresh sidecar, and the ufunc
re-wrapping and conversion paths install sidecars freshly allocated from
the supplied id block (so they are not the sidecar of any pre-existing
instance); but the simple allow-listed operations install the input
instance's own sidecar object in the derived array, sharing it.  No path
ever mutates a sidecar in place. -/
theorem c7_amended_sidecar_allocation (d : DaskArray) (u : PhysUnit)
    (nm : Option String) (g : DaskArray → DaskArray) (x cur : unyt_dask_array)
    (op : ConvOp) (opu : Ufunc) (eng : Operand → Operand → DaskArray)
    (i0 i1 : Operand) (f : ℕ) (y z : unyt_dask_array)
    (hs : _special_dec opu eng i0 i1 f = .ok (.inl y))
    (ht : _track_conversion op cur f = .ok z) :
    (unyt_dask_array_new d u nm f)._unyt_quantity.qid = f ∧
    (_simple_dask_decorator g x f)._unyt_quantity = x._unyt_quantity ∧
    y._unyt_quantity.qid = f + 4 ∧
    z._unyt_quantity.qid = f + 7 := by
  refine ⟨rfl, rfl, ?_, ?_⟩
  · rw [_special_dec] at hs
    cases hp : _prep_ufunc opu i0 i1 true f with
    | error e => rw [hp] at hs; cases hs
    | ok pr =>
      obtain ⟨⟨j0, j1⟩, r⟩ := pr
      rw [hp] at hs
      cases r with
      | quant q =>
        simp only [Except.ok.injEq, Sum.inl.injEq] at hs
        rw [← hs]
        exact prep_ufunc_ok_quant_qid opu i0 i1 true f j0 j1 q hp
      | num v => cases hs
      | boolv b => cases hs
      | other => cases hs
  · rw [track_conversion_unfolded, udask_convert] at ht
    cases hc : cur._unyt_quantity.convert op (f + 4) with
    | error e => rw [hc] at ht; cases ht
    | ok newq =>
      rw [hc] at ht
      simp only [Except.ok.injEq] at ht
      rw [← ht]
      rfl

/-- Witness for C7 amended, at a concrete multiplication and a concrete
conversion with fresh block starting at 10. -/
theorem c7_witness :
    (unyt_dask_array_new (.arr []) meter none 10)._unyt_quantity.qid = 10 ∧
    (_simple_dask_decorator (fun dd => dd)
        (unyt_from_dask (.arr [1, 2]) (some meter) none 0) 10)._unyt_quantity =
      (unyt_from_dask (.arr [1, 2]) (some meter) none 0)._unyt_quantity ∧
    (⟨daskBin (fun a b => a * b) (DaskArray.arr [1, 2]) (.scal 2),
      ⟨(1 : ℚ) * 2, meter, none, 14⟩, meter, none⟩ :
        unyt_dask_array)._unyt_quantity.qid = 14 ∧
    (unyt_from_dask (daskBin (fun a b => a * b) (DaskArray.arr [1, 2])
        (.scal ((1 : ℚ) * 1 / (1 / 100) / 1))) (some centimeter) none
        17)._unyt_quantity.qid = 17 :=
  c7_amended_sidecar_allocation (.arr []) meter none (fun dd => dd)
    (unyt_from_dask (.arr [1, 2]) (some meter) none 0)
    (unyt_from_dask (.arr [1, 2]) (some meter) none 0)
    (.to centimeter) .mul (engineFor .mul)
    (.udask (unyt_from_dask (.arr [1, 2]) (some meter) none 0)) (.scalar 2) 10
    _ _
    (special_mul_scalar (unyt_from_dask (.arr [1, 2]) (some meter) none 0) 2 10)
    (track_to_eq (unyt_from_dask (.arr [1, 2]) (some meter) none 0)
      centimeter 10 rfl)

/-- C2: an intercepted operation whose two unit-bearing operands have
dimensionally incompatible units fails with a `UnitOperationError` inside
`_prep_ufunc` — when the operation is replayed on the scalar sidecars —
and therefore the special-operator decorator fails identically for *every*
engine function: no engine-level computation is ever consulted or built. -/
theorem c2_incompatible_dims_fail_before_engine (op : Ufunc)
    (hop : op ∈ [Ufunc.add, Ufunc.sub, Ufunc.lt]) (x y : unyt_dask_array)
    (eng : Operand → Operand → DaskArray) (ed : Bool) (f : ℕ)
    (hdim : x._unyt_quantity.units.dims ≠ y._unyt_quantity.units.dims) :
    _prep_ufunc op (.udask x) (.udask y) ed f = .error .UnitOperationError ∧
    _special_dec op eng (.udask x) (.udask y) f =
      .error .UnitOperationError := by
  have hsan : _sanitize_unit_args (.udask x) (.udask y) f =
      .ok ((.udask x, .udask y),
        (.quant x._unyt_quantity, .quant y._unyt_quantity)) := by
    simp only [_sanitize_unit_args, _extract_unyt]
    rw [if_neg]
    intro hcon
    exact hdim hcon.2
  have happ : applyUfunc op (.quant x._unyt_quantity)
      (.quant y._unyt_quantity) (f + 4) = .error .UnitOperationError := by
    fin_cases hop <;> simp [applyUfunc, hdim]
  have hprep : ∀ ed' : Bool, _prep_ufunc op (.udask x) (.udask y) ed' f =
      .error .UnitOperationError := by
    intro ed'
    rw [_prep_ufunc]
    simp only [hsan, happ]
  refine ⟨hprep ed, ?_⟩
  rw [_special_dec]
  simp only [hprep true]

/-- Witness for C2: adding a meter array to a second array fails before any
engine delegation. -/
theorem c2_witness :
    _prep_ufunc .add (.udask (unyt_from_dask (.arr [1]) (some meter) none 0))
        (.udask (unyt_from_dask (.arr [2]) (some second) none 1)) true 0 =
      .error .UnitOperationError ∧
    _special_dec .add (engineFor .add)
        (.udask (unyt_from_dask (.arr [1]) (some meter) none 0))
        (.udask (unyt_from_dask (.arr [2]) (some second) none 1)) 0 =
      .error .UnitOperationError :=
  c2_incompatible_dims_fail_before_engine .add (by decide)
    (unyt_from_dask (.arr [1]) (some meter) none 0)
    (unyt_from_dask (.arr [2]) (some second) none 1)
    (engineFor .add) true 0 (by decide)

lemma sanitize_converts_first (x y : unyt_dask_array) (f : ℕ)
    (hne : x._unyt_quantity.units ≠ y._unyt_quantity.units)
    (hdim : x._unyt_quantity.units.dims = y._unyt_quantity.units.dims)
    (hb : x._unyt_quantity.units.base_value <
      y._unyt_quantity.units.base_value) :
    _sanitize_unit_args (.udask x) (.udask y) f =
      .ok ((.udask (unyt_from_dask (daskBin (fun a b => a * b) x.dask
          (.scal ((x._unyt_quantity.value * x._unyt_quantity.units.base_value /
            y._unyt_quantity.units.base_value) / x._unyt_quantity.value)))
          (some y._unyt_quantity.units) none (f + 3)), .udask y),
        (.quant ⟨1, y._unyt_quantity.units, none, f + 3⟩,
          .quant y._unyt_quantity)) := by
  simp only [_sanitize_unit_args, _extract_unyt]
  rw [if_pos ⟨hne, hdim⟩, if_pos hb]
  simp only [Operand.toU, udask_convert, unyt_quantity.convert,
    unyt_quantity.to, if_pos hdim]
  rfl

lemma sanitize_converts_second (x y : unyt_dask_array) (f : ℕ)
    (hne : x._unyt_quantity.units ≠ y._unyt_quantity.units)
    (hdim : x._unyt_quantity.units.dims = y._unyt_quantity.units.dims)
    (hnb : ¬ x._unyt_quantity.units.base_value <
      y._unyt_quantity.units.base_value) :
    _sanitize_unit_args (.udask x) (.udask y) f =
      .ok ((.udask x, .udask (unyt_from_dask (daskBin (fun a b => a * b) y.dask
          (.scal ((y._unyt_quantity.value * y._unyt_quantity.units.base_value /
            x._unyt_quantity.units.base_value) / y._unyt_quantity.value)))
          (some x._unyt_quantity.units) none (f + 3))),
        (.quant x._unyt_quantity,
          .quant ⟨1, x._unyt_quantity.units, none, f + 3⟩)) := by
  simp only [_sanitize_unit_args, _extract_unyt]
  rw [if_pos ⟨hne, hdim⟩, if_neg hnb]
  simp only [Operand.toU, udask_convert, unyt_quantity.convert,
    unyt_quantity.to, if_pos hdim.symm]
  rfl

/-- C1 counterexample: multiplying a meter array by a kilometer array — an
intercepted operation whose first two extracted operands both carry units
that are different but of equal dimensions — produces a result whose unit
is `km*km` (the square of the reconciled unit), not the unit of the
larger-base-value operand (`km`) and not `m`; so the claim's conclusion
"the result's unit equals the larger-base-value operand's unit" is false
for this intercepted operation. -/
theorem c1_counterexample :
    special_result_units (_special_dec .mul (engineFor .mul)
        (.udask (unyt_from_dask (.arr [1]) (some meter) none 0))
        (.udask (unyt_from_dask (.arr [1]) (some kilometer) none 1)) 2) =
      some (kilometer.mulU kilometer) ∧
    kilometer.mulU kilometer ≠ kilometer ∧
    kilometer.mulU kilometer ≠ meter := by
  refine ⟨?_, by norm_num [PhysUnit.mulU, kilometer], by norm_num [PhysUnit.mulU, kilometer, meter]⟩
  rw [_special_dec, _prep_ufunc]
  rw [sanitize_converts_first (unyt_from_dask (.arr [1]) (some meter) none 0)
    (unyt_from_dask (.arr [1]) (some kilometer) none 1) 2 (by decide) rfl
    (by norm_num [unyt_from_dask, unyt_dask_array_new, meter, kilometer])]
  simp [applyUfunc, special_result_units, unyt_from_dask, unyt_dask_array_new,
    _extract_dask, _extract_unyt_val, _create_with_quantity, _set_unit_state]

/-- C1 amended: for every intercepted operation whose first two extracted
operands both carry units that are different but of equal dimensions, the
operand whose unit has the smaller `base_value` is converted into the other
operand's unit before the result unit is resolved and before the
computation is delegated (on a `base_value` tie the second operand is
converted into the first's unit), so both sanitized sidecars carry the
larger-base-value operand's unit; for *addition* the result's unit then
equals the larger-base-value operand's unit (for unit-combining operations
such as multiplication the result unit is instead resolved from the
reconciled units, e.g. their product); no stored state of either operand is
modified (all functions of the embedding are pure). -/
theorem c1_amended_reconcile_to_larger_base (x y : unyt_dask_array) (f : ℕ)
    (hne : x._unyt_quantity.units ≠ y._unyt_quantity.units)
    (hdim : x._unyt_quantity.units.dims = y._unyt_quantity.units.dims) :
    sanitized_units (_sanitize_unit_args (.udask x) (.udask y) f) =
      some (reconcile_target x._unyt_quantity y._unyt_quantity,
        reconcile_target x._unyt_quantity y._unyt_quantity) ∧
    special_result_units (_special_dec .add (engineFor .add)
        (.udask x) (.udask y) f) =
      some (reconcile_target x._unyt_quantity y._unyt_quantity) := by
  by_cases hb : x._unyt_quantity.units.base_value <
      y._unyt_quantity.units.base_value
  · have hsan := sanitize_converts_first x y f hne hdim hb
    rw [reconcile_target, if_pos hb]
    constructor
    · rw [hsan]
      rfl
    · rw [_special_dec, _prep_ufunc]
      simp only [hsan, applyUfunc]
      simp [special_result_units]
      rfl
  · have hsan := sanitize_converts_second x y f hne hdim hb
    rw [reconcile_target, if_neg hb]
    constructor
    · rw [hsan]
      rfl
    · rw [_special_dec, _prep_ufunc]
      simp only [hsan, applyUfunc]
      simp [special_result_units]
      rfl

/-- Witness for C1 amended: a meter operand and a kilometer operand are
reconciled to kilometers, and their sum carries kilometers. -/
theorem c1_witness :
    sanitized_units (_sanitize_unit_args
        (.udask (unyt_from_dask (.arr [1]) (some meter) none 0))
        (.udask (unyt_from_dask (.arr [1]) (some kilometer) none 1)) 0) =
      some (kilometer, kilometer) ∧
    special_result_units (_special_dec .add (engineFor .add)
        (.udask (unyt_from_dask (.arr [1]) (some meter) none 0))
        (.udask (unyt_from_dask (.arr [1]) (some kilometer) none 1)) 0) =
      some kilometer :=
  c1_amended_reconcile_to_larger_base
    (unyt_from_dask (.arr [1]) (some meter) none 0)
    (unyt_from_dask (.arr [1]) (some kilometer) none 1) 0
    (by decide) rfl

lemma to_ok_fields (q : unyt_quantity) (u : PhysUnit) (f : ℕ)
    (r : unyt_quantity) (h : q.to u f = .ok r) :
    r = ⟨q.value * q.units.base_value / u.base_value, u, q.name, f⟩ := by
  rw [unyt_quantity.to] at h
  split at h
  · injection h with h
    exact h.symm
  · exact Except.noConfusion h

lemma convert_ok_fields (q : unyt_quantity) (op : ConvOp) (f : ℕ)
    (r : unyt_quantity) (h : q.convert op f = .ok r) :
    r.value = q.value * q.units.base_value / r.units.base_value ∧
      r.qid = f := by
  cases op <;>
    simp only [unyt_quantity.convert] at h <;>
    rw [to_ok_fields _ _ _ _ h] <;>
    exact ⟨rfl, rfl⟩

/-- C3: a conversion method applied to a unit-bearing lazy array computes
the multiplicative factor `new_value / initial_value` from the sidecar
conversion — a pure unit ratio `old_base_value / new_base_value` — and
returns a brand-new instance whose lazy array is the original lazy array
multiplied by that factor, wrapped with the new sidecar's unit (the
original is not modified: the embedding is pure). -/
theorem c3_conversion_scales_by_factor (op : ConvOp)
    (cur : unyt_dask_array) (f : ℕ) (newq : unyt_quantity)
    (hconv : cur._unyt_quantity.convert op f = .ok newq)
    (hval : cur._unyt_quantity.value ≠ 0) :
    newq.value / cur._unyt_quantity.value =
      cur._unyt_quantity.units.base_value / newq.units.base_value ∧
    _track_conversion op cur f =
      .ok (unyt_from_dask (daskBin (fun a b => a * b) cur.dask
        (.scal (newq.value / cur._unyt_quantity.value)))
        (some newq.units) none (f + 7)) ∧
    (unyt_from_dask (daskBin (fun a b => a * b) cur.dask
        (.scal (newq.value / cur._unyt_quantity.value)))
        (some newq.units) none (f + 7)).units = newq.units := by
  refine ⟨?_, ?_, rfl⟩
  · rw [(convert_ok_fields _ _ _ _ hconv).1, mul_div_assoc]
    exact mul_div_cancel_left₀ _ hval
  · rw [_track_conversion]
    simp only [hconv, special_mul_scalar]

/-- Witness for C3: converting a meter array with values `[1, 2, 3, 4]` to
centimeters multiplies the lazy array by `1 / (1/100) = 100` and wraps it
in centimeters; materialized, it is the `unyt_array` `[100, 200, 300, 400]`
with unit `cm` (the spec's example, flattened). -/
theorem c3_witness :
    ((⟨(1 : ℚ) * 1 / (1/100), centimeter, none, 0⟩ : unyt_quantity).value /
        (unyt_from_dask (.arr [1, 2, 3, 4]) (some meter) none
          0)._unyt_quantity.value =
      (unyt_from_dask (.arr [1, 2, 3, 4]) (some meter) none
          0)._unyt_quantity.units.base_value / centimeter.base_value ∧
    _track_conversion (.to centimeter)
        (unyt_from_dask (.arr [1, 2, 3, 4]) (some meter) none 0) 0 =
      .ok (unyt_from_dask (daskBin (fun a b => a * b) (.arr [1, 2, 3, 4])
        (.scal ((1 : ℚ) * 1 / (1/100) / 1))) (some centimeter) none 7) ∧
    (unyt_from_dask (daskBin (fun a b => a * b) (.arr [1, 2, 3, 4])
        (.scal ((1 : ℚ) * 1 / (1/100) / 1))) (some centimeter) none
        7).units = centimeter) ∧
    (unyt_from_dask (daskBin (fun a b => a * b) (.arr [1, 2, 3, 4])
        (.scal ((1 : ℚ) * 1 / (1/100) / 1))) (some centimeter) none
        7).computeU = .unyt_array_res [100, 200, 300, 400] centimeter := by
  constructor
  · exact c3_conversion_scales_by_factor (.to centimeter)
      (unyt_from_dask (.arr [1, 2, 3, 4]) (some meter) none 0) 0
      ⟨(1 : ℚ) * 1 / (1/100), centimeter, none, 0⟩ rfl
      (by norm_num [unyt_from_dask, unyt_dask_array_new])
  · norm_num [unyt_from_dask, unyt_dask_array_new, daskBin,
      unyt_dask_array.computeU, DaskArray.compute, _finalize_unyt]

/-- C9: converting to a dimensionally compatible unit and back composes
two factors whose product is exactly 1, so the round trip returns an
instance whose lazy array is *exactly* the original lazy array (hence the
materialized values are exactly the original values) and whose unit is the
original unit. -/
theorem c9_roundtrip_exact (x : unyt_dask_array) (u : PhysUnit) (f1 f2 : ℕ)
    (hval : x._unyt_quantity.value ≠ 0)
    (hdim : x._unyt_quantity.units.dims = u.dims)
    (hb0 : x._unyt_quantity.units.base_value ≠ 0)
    (hbu : u.base_value ≠ 0) :
    (_track_conversion (.to u) x f1).bind
        (fun y => _track_conversion (.to x._unyt_quantity.units) y f2) =
      .ok (unyt_from_dask x.dask (some x._unyt_quantity.units) none
        (f2 + 7)) := by
  rw [track_to_eq x u f1 hdim]
  simp only [Except.bind]
  rw [track_to_eq _ x._unyt_quantity.units f2 (by exact hdim.symm)]
  simp only [unyt_from_dask_fields, Option.getD_some]
  have hD : daskBin (fun a b => a * b) (daskBin (fun a b => a * b) x.dask
      (.scal (x._unyt_quantity.value * x._unyt_quantity.units.base_value /
        u.base_value / x._unyt_quantity.value)))
      (.scal (1 * u.base_value / x._unyt_quantity.units.base_value / 1)) =
      x.dask := by
    refine daskBin_mul_cancel _ _ _ ?_
    field_simp
    ring
  rw [hD]

/-- Witness for C9: `[1, 2] m` → cm → m round-trips to exactly the
original values with unit `m`. -/
theorem c9_witness :
    (_track_conversion (.to centimeter)
        (unyt_from_dask (.arr [1, 2]) (some meter) none 0) 0).bind
        (fun y => _track_conversion (.to meter) y 20) =
      .ok (unyt_from_dask (.arr [1, 2]) (some meter) none 27) :=
  c9_roundtrip_exact (unyt_from_dask (.arr [1, 2]) (some meter) none 0)
    centimeter 0 20 (by norm_num [unyt_from_dask, unyt_dask_array_new]) rfl
    (by norm_num [unyt_from_dask, unyt_dask_array_new, meter])
    (by norm_num [centimeter])
